import Mathlib

/-!
Verification of the scale-converter repository's computational core.

The repository contains two near-duplicate React components:
`src/src/App.jsx` (`MeasurementConverter` / `ScaleToScaleConverter`) and
`src/unnamed/part_000` (`ScaleConverter`).  Both share the helpers
`clamp`, `round`, `inchesToFraction` and the unit tables verbatim; they
differ in the `mmScaled` computation (the `part_000` version strips
commas from the input string and clamps the scale to `[1,72]`, the
`App.jsx` version does neither).

JavaScript numbers are embedded as rationals (`ℚ`); the non-finite
values `NaN`, `Infinity` and `-Infinity`, which the helpers `round` and
`inchesToFraction` test for with `Number.isFinite`, are represented by
the extra constructors of `JSNumber`.  `Number(string)` coercion is
embedded for the decimal fragment the UI accepts (optional sign, digits,
optional fractional part); every other string parses to `NaN`, encoded
as `none`.
-/

namespace ScaleConv

/-- A JavaScript number: either a finite value (embedded as a rational)
or one of the non-finite values `NaN`, `Infinity`, `-Infinity`. -/
inductive JSNumber where
  | finite (q : ℚ)
  | nan
  | posInf
  | negInf
deriving DecidableEq

/-- `Number.isFinite v` from JavaScript. -/
def jsIsFinite : JSNumber → Bool
  | .finite _ => true
  | _ => false

/-- `const clamp = (v, min, max) => Math.min(Math.max(v, min), max)`
(identical in `App.jsx` line 5 and `part_000` line 6). -/
def clamp (v lo hi : ℚ) : ℚ :=
  min (max v lo) hi

/-- The value of `Number(v.toFixed(dp))` for a finite `v`: fixed-decimal
rounding to `dp` places, ties away from zero (ECMA-262
`Number.prototype.toFixed` takes the integer `n` with `n / 10^f` closest
to the magnitude, the larger `n` on a tie). -/
def toFixedQ (dp : ℕ) (v : ℚ) : ℚ :=
  if v < 0 then -((⌊(-v) * 10 ^ dp + 1 / 2⌋ : ℤ) : ℚ) / 10 ^ dp
  else ((⌊v * 10 ^ dp + 1 / 2⌋ : ℤ) : ℚ) / 10 ^ dp

/-- `const round = (v, dp) => (Number.isFinite(v) ? Number(v.toFixed(dp)) : 0)`
(identical in `App.jsx` line 6 and `part_000` line 7). -/
def round (v : JSNumber) (dp : ℕ) : ℚ :=
  match v with
  | .finite q => toFixedQ dp q
  | _ => 0

/-- The fraction record returned by `inchesToFraction`:
`{ sign, whole, num, denom }`.  `whole`, `num` and `denom` are
non-negative integers in every reachable state. -/
structure Fraction where
  sign : String
  whole : ℕ
  num : ℕ
  denom : ℕ
deriving DecidableEq

/-- `function inchesToFraction(inches, denom)` (identical in `App.jsx`
lines 8–19 and `part_000` lines 9–20).  `Math.round` on the
non-negative `frac * denom` is `⌊x + 1/2⌋`; the recursive helper
`g = (a, b) => (b ? g(b, a % b) : a)` is the Euclidean algorithm,
i.e. `Nat.gcd` (the recurrence is proved as `gcd_src_rec` below), and
`g(num, denom) || 1` replaces a zero gcd by 1, i.e. `max (gcd) 1`. -/
def inchesToFraction (inches : JSNumber) (denom : ℕ) : Fraction :=
  match inches with
  | .finite q =>
    let sign := if q < 0 then "-" else ""
    let abs : ℚ := |q|
    let whole : ℕ := ⌊abs⌋₊
    let frac : ℚ := abs - whole
    let num : ℕ := ⌊frac * denom + 1 / 2⌋₊
    if num = denom then ⟨sign, whole + 1, 0, denom⟩
    else
      let gg := max (Nat.gcd num denom) 1
      ⟨sign, whole, num / gg, denom / gg⟩
  | _ => ⟨"", 0, 0, denom⟩

/-- The source's recursive helper `g = (a, b) => (b ? g(b, a % b) : a)`
satisfies exactly this recurrence, and `Nat.gcd` satisfies it too, so
`Nat.gcd` is a faithful embedding of `g`. -/
theorem gcd_src_rec (a b : ℕ) : Nat.gcd a b = if b = 0 then a else Nat.gcd b (a % b) := by
  by_cases hb : b = 0
  · simp [hb]
  · rw [if_neg hb, Nat.gcd_comm a b, Nat.gcd_rec b a, Nat.gcd_comm (a % b) b]

/-- A unit-table entry: `{ key, toMM, fromMM }` (the presentational
`label` field is omitted).  `toMM` and `fromMM` are embedded as the
independent functions the source defines, not derived from a shared
factor, so that their round-trip property is a fact to prove. -/
structure ConvUnit where
  key : String
  toMM : ℚ → ℚ
  fromMM : ℚ → ℚ

/-- `{ key: "mm", toMM: (v) => v, fromMM: (mm) => mm }`. -/
def mmUnit : ConvUnit :=
  ⟨"mm", fun v => v, fun mm => mm⟩

/-- `{ key: "cm", toMM: (v) => v * 10, fromMM: (mm) => mm / 10 }`. -/
def cmUnit : ConvUnit :=
  ⟨"cm", fun v => v * 10, fun mm => mm / 10⟩

/-- `{ key: "m", toMM: (v) => v * 1000, fromMM: (mm) => mm / 1000 }`. -/
def mUnit : ConvUnit :=
  ⟨"m", fun v => v * 1000, fun mm => mm / 1000⟩

/-- `{ key: "in", toMM: (v) => v * 25.4, fromMM: (mm) => mm / 25.4 }`. -/
def inUnit : ConvUnit :=
  ⟨"in", fun v => v * 25.4, fun mm => mm / 25.4⟩

/-- `{ key: "ft", toMM: (v) => v * 12 * 25.4, fromMM: (mm) => mm / (12 * 25.4) }`. -/
def ftUnit : ConvUnit :=
  ⟨"ft", fun v => v * 12 * 25.4, fun mm => mm / (12 * 25.4)⟩

/-- `METRIC_UNITS` (identical in both files). -/
def METRIC_UNITS : List ConvUnit :=
  [mmUnit, cmUnit, mUnit]

/-- `IMPERIAL_UNITS` (identical in both files). -/
def IMPERIAL_UNITS : List ConvUnit :=
  [inUnit, ftUnit]

/-- `ALL_SCALES = Array.from({length: 72}, (_, i) => i + 1)`. -/
def ALL_SCALES : List ℕ :=
  (List.range 72).map (· + 1)

/-- Whitespace characters stripped by the `Number(string)` coercion. -/
def isWs (c : Char) : Bool :=
  c = ' ' || c = '\t' || c = '\n' || c = '\r'

/-- Strip leading and trailing whitespace. -/
def trimWs (l : List Char) : List Char :=
  ((l.dropWhile isWs).reverse.dropWhile isWs).reverse

/-- Numeric value of a list of decimal digits. -/
def digitsVal (l : List Char) : ℕ :=
  l.foldl (fun a c => 10 * a + (c.toNat - '0'.toNat)) 0

/-- Parse an unsigned decimal literal `digits [ "." digits ]` (either
digit group may be empty, not both).  Any other shape — in particular a
string still containing a comma — is not a decimal literal. -/
def parseUnsigned (l : List Char) : Option ℚ :=
  let ip := l.takeWhile Char.isDigit
  let rest := l.dropWhile Char.isDigit
  match rest with
  | [] => if ip.isEmpty then none else some (digitsVal ip)
  | '.' :: fp =>
    if fp.all Char.isDigit && (!ip.isEmpty || !fp.isEmpty) then
      some ((digitsVal ip : ℚ) + (digitsVal fp : ℚ) / 10 ^ fp.length)
    else none
  | _ => none

/-- Modelled fragment of the ECMAScript `Number(string)` coercion, for
the decimal inputs this UI accepts: surrounding whitespace is ignored,
the empty string is `0`, an optional sign precedes an unsigned decimal
literal; every other string (exponents, hex, `Infinity` and
comma-containing strings included) yields `NaN`, encoded `none`. -/
def jsNumber (s : String) : Option ℚ :=
  let t := trimWs s.data
  match t with
  | [] => some 0
  | '-' :: rest => (parseUnsigned rest).map (fun q => -q)
  | '+' :: rest => parseUnsigned rest
  | _ => parseUnsigned t

/-- `String(inputValue).replace(/,/g, "")` from `part_000` line 68. -/
def stripCommas (s : String) : String :=
  String.mk (s.data.filter (fun c => c != ','))

/-- The parsed value used by `part_000` lines 68–69:
`const val = Number(String(inputValue).replace(/,/g, ""));`
`const v = Number.isFinite(val) ? val : 0;`. -/
def scParsed (inputValue : String) : ℚ :=
  match jsNumber (stripCommas inputValue) with
  | some val => val
  | none => 0

/-- Arithmetic core of `part_000`'s `mmScaled` (line 71):
`const scaled = mmOrig / clamp(scaleN, 1, 72);` with
`mmOrig = activeUnit.toMM(v)`. -/
def sc_mmScaledVal (v : ℚ) (u : ConvUnit) (scaleN : ℚ) : ℚ :=
  u.toMM v / clamp scaleN 1 72

/-- `part_000` lines 67–73: parse (commas stripped, non-finite
falls back to 0), convert to millimetres, divide by the clamped scale. -/
def sc_mmScaled (inputValue : String) (u : ConvUnit) (scaleN : ℚ) : ℚ :=
  sc_mmScaledVal (scParsed inputValue) u scaleN

/-- Arithmetic core of `App.jsx`'s `mmScaled` (line 112):
`return { mmScaled: mmOrig / scaleN };` — no clamping. -/
def app_mmScaledVal (v : ℚ) (u : ConvUnit) (scaleN : ℚ) : ℚ :=
  u.toMM v / scaleN

/-- `App.jsx` lines 108–113: `const num = Number(inputValue);` (no comma
stripping), `if (!Number.isFinite(num)) return { mmScaled: 0 };`, else
divide the millimetre value by the unclamped scale. -/
def app_mmScaled (inputValue : String) (u : ConvUnit) (scaleN : ℚ) : ℚ :=
  match jsNumber inputValue with
  | none => 0
  | some num => app_mmScaledVal num u scaleN

/-- The `metricOut` record `{ mm, cm, m }` (identical computation in
`App.jsx` lines 115–119 and `part_000` lines 75–78). -/
structure MetricOut where
  mm : ℚ
  cm : ℚ
  m : ℚ
deriving DecidableEq

/-- `metricOut`: `{ mm: round(mmScaled, decimals), cm: round(mmScaled / 10,
decimals), m: round(mmScaled / 1000, decimals) }`. -/
def metricOut (mmScaled : ℚ) (decimals : ℕ) : MetricOut :=
  ⟨round (.finite mmScaled) decimals,
   round (.finite (mmScaled / 10)) decimals,
   round (.finite (mmScaled / 1000)) decimals⟩

/-- The `imperialOut` record; the source field `in` is a Lean keyword
and is embedded as `inVal`. -/
structure ImperialOut where
  inVal : ℚ
  ft : ℚ
  frac : Fraction
deriving DecidableEq

/-- `imperialOut` (identical computation in `App.jsx` lines 121–126 and
`part_000` lines 80–85): `inches = mmScaled / 25.4`, `feet = inches / 12`,
fraction from `inchesToFraction(inches, inchDenom)`. -/
def imperialOut (mmScaled : ℚ) (decimals : ℕ) (inchDenom : ℕ) : ImperialOut :=
  let inches := mmScaled / 25.4
  let feet := inches / 12
  ⟨round (.finite inches) decimals,
   round (.finite feet) decimals,
   inchesToFraction (.finite inches) inchDenom⟩

/-- `App.jsx` lines 175–178, `ScaleToScaleConverter`:
`if (!fromScale || !toScale) return 0;`
`return ((fromScale / toScale) * 100).toFixed(2);`
(a number `x` is falsy exactly when `x == 0` or `x` is `NaN`; in the
rational embedding that is `x = 0`). -/
def percent (fromScale toScale : ℚ) : ℚ :=
  if fromScale = 0 ∨ toScale = 0 then 0
  else toFixedQ 2 (fromScale / toScale * 100)

/-- Helper: compute a natural floor from enclosing bounds. -/
theorem natFloor_eq (a : ℚ) (n : ℕ) (h1 : (n : ℚ) ≤ a) (h2 : a < n + 1) : ⌊a⌋₊ = n :=
  (Nat.floor_eq_iff (le_trans (Nat.cast_nonneg n) h1)).mpr ⟨h1, h2⟩

/-- Helper: compute an integer floor from enclosing bounds. -/
theorem intFloor_eq (a : ℚ) (z : ℤ) (h1 : (z : ℚ) ≤ a) (h2 : a < z + 1) : ⌊a⌋ = z :=
  Int.floor_eq_iff.mpr ⟨h1, h2⟩

/-- Helper: evaluation of `inchesToFraction` on a non-negative finite
input that does not hit the overflow branch. -/
theorem inchesToFraction_pos_eval (q : ℚ) (d w n : ℕ) (hq : 0 ≤ q)
    (hw : ⌊q⌋₊ = w) (hn : ⌊(q - (w : ℚ)) * (d : ℚ) + 1 / 2⌋₊ = n) (hnd : n ≠ d) :
    inchesToFraction (.finite q) d =
      ⟨"", w, n / max (Nat.gcd n d) 1, d / max (Nat.gcd n d) 1⟩ := by
  simp only [inchesToFraction]
  rw [abs_of_nonneg hq, hw, hn, if_neg hnd, if_neg (not_lt.mpr hq)]

end ScaleConv

namespace ScaleConv

/-- C10: the rounding helper returns 0 on every non-finite input
(`NaN`, `Infinity`, `-Infinity`) instead of propagating it, so the
rounded output fields are finite rationals. -/
theorem claim10_round_nonfinite (v : JSNumber) (dp : ℕ) (h : jsIsFinite v = false) :
    round v dp = 0 := by
  cases v with
  | finite q => simp [jsIsFinite] at h
  | nan => rfl
  | posInf => rfl
  | negInf => rfl

/-- Witness for C10 at `v = Infinity`, `dp = 3`. -/
theorem claim10_witness : jsIsFinite JSNumber.posInf = false ∧ round JSNumber.posInf 3 = 0 :=
  ⟨rfl, claim10_round_nonfinite JSNumber.posInf 3 rfl⟩

/-- C5: for every non-finite input the fraction reducer returns the
degenerate zero fraction (empty sign, whole 0, numerator 0) with the
requested denominator preserved; as a total function it raises no
error on any input. -/
theorem claim5_nonfinite_zero_fraction (v : JSNumber) (d : ℕ) (h : jsIsFinite v = false) :
    inchesToFraction v d = ⟨"", 0, 0, d⟩ := by
  cases v with
  | finite q => simp [jsIsFinite] at h
  | nan => rfl
  | posInf => rfl
  | negInf => rfl

/-- Witness for C5 at `v = NaN`, `d = 16`. -/
theorem claim5_witness :
    jsIsFinite JSNumber.nan = false ∧ inchesToFraction JSNumber.nan 16 = ⟨"", 0, 0, 16⟩ :=
  ⟨rfl, claim5_nonfinite_zero_fraction JSNumber.nan 16 rfl⟩

/-- C4: whenever the remainder times the denominator rounds to exactly
the denominator, the fraction reducer increments the whole part and
returns numerator 0 with the requested denominator preserved. -/
theorem claim4_overflow_to_whole (q : ℚ) (d : ℕ)
    (h : ⌊(|q| - (⌊|q|⌋₊ : ℚ)) * (d : ℚ) + 1 / 2⌋₊ = d) :
    inchesToFraction (.finite q) d =
      ⟨if q < 0 then "-" else "", ⌊|q|⌋₊ + 1, 0, d⟩ := by
  simp only [inchesToFraction]
  rw [if_pos h]

/-- Witness for C4: `inchesToFraction(1.96875, 16) = {whole: 2, num: 0, denom: 16}`,
the overflow-to-whole case from the spec. -/
theorem claim4_witness :
    ⌊(|(1.96875 : ℚ)| - (⌊|(1.96875 : ℚ)|⌋₊ : ℚ)) * ((16 : ℕ) : ℚ) + 1 / 2⌋₊ = 16
    ∧ inchesToFraction (.finite 1.96875) 16 = ⟨"", 2, 0, 16⟩ := by
  have h1 : ⌊|(1.96875 : ℚ)|⌋₊ = 1 := by
    rw [abs_of_nonneg (by norm_num : (0 : ℚ) ≤ 1.96875)]
    exact natFloor_eq _ 1 (by norm_num) (by norm_num)
  have h : ⌊(|(1.96875 : ℚ)| - (⌊|(1.96875 : ℚ)|⌋₊ : ℚ)) * ((16 : ℕ) : ℚ) + 1 / 2⌋₊ = 16 := by
    rw [h1, abs_of_nonneg (by norm_num : (0 : ℚ) ≤ 1.96875)]
    exact natFloor_eq _ 16 (by norm_num) (by norm_num)
  refine ⟨h, ?_⟩
  rw [claim4_overflow_to_whole 1.96875 16 h, h1, if_neg (by norm_num : ¬(1.96875 : ℚ) < 0)]

/-- C9: for every unit in the metric and imperial tables, converting to
millimetres and back through the same unit is the identity (exactly, in
the rational embedding). -/
theorem claim9_unit_roundtrip (u : ConvUnit) (hu : u ∈ METRIC_UNITS ++ IMPERIAL_UNITS)
    (v : ℚ) : u.fromMM (u.toMM v) = v := by
  simp only [METRIC_UNITS, IMPERIAL_UNITS, List.mem_append, List.mem_cons,
    List.mem_singleton, List.not_mem_nil, or_false] at hu
  rcases hu with (h | h | h) | (h | h) <;> subst h
  · rfl
  · show v * 10 / 10 = v
    field_simp
  · show v * 1000 / 1000 = v
    field_simp
  · show v * 25.4 / 25.4 = v
    field_simp
  · show v * 12 * 25.4 / (12 * 25.4) = v
    field_simp
    ring

/-- Witness for C9 at the centimetre unit and `v = 7`. -/
theorem claim9_witness :
    cmUnit ∈ METRIC_UNITS ++ IMPERIAL_UNITS ∧ cmUnit.fromMM (cmUnit.toMM 7) = 7 :=
  ⟨by simp [METRIC_UNITS], claim9_unit_roundtrip cmUnit (by simp [METRIC_UNITS]) 7⟩

/-- C7: the scale ratio converter returns exactly 0 when either input
is zero (the falsy guard), with no division attempted; as a total
function it raises no error. -/
theorem claim7_percent_zero_guard (a b : ℚ) (h : a = 0 ∨ b = 0) : percent a b = 0 := by
  rw [percent, if_pos h]

/-- Witness for C7: `percent 0 18 = 0` and `percent 14 0 = 0`. -/
theorem claim7_witness :
    ((0 : ℚ) = 0 ∨ (18 : ℚ) = 0) ∧ ((14 : ℚ) = 0 ∨ (0 : ℚ) = 0)
    ∧ percent 0 18 = 0 ∧ percent 14 0 = 0 :=
  ⟨Or.inl rfl, Or.inr rfl,
   claim7_percent_zero_guard 0 18 (Or.inl rfl),
   claim7_percent_zero_guard 14 0 (Or.inr rfl)⟩

/-- C1: for a scale `n` in `[1,72]` and a value `v ≥ 0` entered in
millimetres, the millimetre output field equals `v / n` rounded at the
configured precision — in both the `part_000` converter (which clamps)
and the `App.jsx` converter (whose clamp-free division agrees on this
range). -/
theorem claim1_mm_scale_round (v : ℚ) (n : ℕ) (dp : ℕ) (hv : 0 ≤ v)
    (h1 : 1 ≤ n) (h72 : n ≤ 72) :
    (metricOut (sc_mmScaledVal v mmUnit (n : ℚ)) dp).mm = toFixedQ dp (v / n)
    ∧ (metricOut (app_mmScaledVal v mmUnit (n : ℚ)) dp).mm = toFixedQ dp (v / n) := by
  have h1' : (1 : ℚ) ≤ (n : ℚ) := by exact_mod_cast h1
  have h72' : (n : ℚ) ≤ 72 := by exact_mod_cast h72
  have hc : clamp (n : ℚ) 1 72 = (n : ℚ) := by
    rw [clamp, max_eq_left h1', min_eq_left h72']
  constructor
  · show toFixedQ dp (sc_mmScaledVal v mmUnit (n : ℚ)) = toFixedQ dp (v / n)
    rw [sc_mmScaledVal, hc]
    rfl
  · rfl

/-- Witness for C1 at `v = 100` mm, `n = 10`, `dp = 3`. -/
theorem claim1_witness :
    (0 : ℚ) ≤ 100 ∧ 1 ≤ 10 ∧ 10 ≤ 72
    ∧ (metricOut (sc_mmScaledVal 100 mmUnit ((10 : ℕ) : ℚ)) 3).mm = toFixedQ 3 (100 / (10 : ℕ))
    ∧ (metricOut (app_mmScaledVal 100 mmUnit ((10 : ℕ) : ℚ)) 3).mm = toFixedQ 3 (100 / (10 : ℕ)) :=
  ⟨by norm_num, by norm_num, by norm_num,
   (claim1_mm_scale_round 100 10 3 (by norm_num) (by norm_num) (by norm_num)).1,
   (claim1_mm_scale_round 100 10 3 (by norm_num) (by norm_num) (by norm_num)).2⟩

/-- Counterexample to C2 as stated: the `App.jsx` linear converter does
NOT clamp the scale to `[1,72]` before dividing — at scale 144 it
divides by 144 (giving 1 for a 144 mm input) where the clamped
division would give 2. -/
theorem claim2_counterexample :
    app_mmScaledVal 144 mmUnit 144 ≠ mmUnit.toMM 144 / clamp 144 1 72 := by
  have hcl : clamp (144 : ℚ) 1 72 = 72 := by
    rw [clamp, max_eq_left (by norm_num : (1 : ℚ) ≤ 144),
      min_eq_right (by norm_num : (72 : ℚ) ≤ 144)]
  rw [app_mmScaledVal, hcl]
  show (144 : ℚ) / 144 ≠ (144 : ℚ) / 72
  norm_num

/-- C2 amended: the `part_000` converter clamps the scale to `[1,72]`
before dividing; the `App.jsx` converter divides by the scale
unclamped.  In both, the scale is used purely as a divisor
(multiplying the result by `n` recovers the unscaled millimetre
value), and scale `1:1` returns the unscaled value unchanged. -/
theorem claim2_amended (v : ℚ) (u : ConvUnit) (n : ℚ) :
    sc_mmScaledVal v u n = sc_mmScaledVal v u (clamp n 1 72)
    ∧ (1 ≤ n → n ≤ 72 → sc_mmScaledVal v u n * n = u.toMM v)
    ∧ sc_mmScaledVal v u 1 = u.toMM v
    ∧ (n ≠ 0 → app_mmScaledVal v u n * n = u.toMM v)
    ∧ app_mmScaledVal v u 1 = u.toMM v := by
  have hlo : (1 : ℚ) ≤ clamp n 1 72 := le_min (le_max_right n 1) (by norm_num)
  have hhi : clamp n 1 72 ≤ 72 := min_le_right _ _
  refine ⟨?_, ?_, ?_, ?_, ?_⟩
  · rw [sc_mmScaledVal, sc_mmScaledVal]
    rw [show clamp (clamp n 1 72) 1 72 = clamp n 1 72 by
      rw [clamp, max_eq_left hlo, min_eq_left hhi]]
  · intro ha hb
    rw [sc_mmScaledVal, clamp, max_eq_left ha, min_eq_left hb,
      div_mul_cancel₀ _ (by linarith : n ≠ 0)]
  · rw [sc_mmScaledVal, clamp, max_self, min_eq_left (by norm_num : (1 : ℚ) ≤ 72), div_one]
  · intro hn
    rw [app_mmScaledVal, div_mul_cancel₀ _ hn]
  · rw [app_mmScaledVal, div_one]

/-- Witness for C2 amended at `v = 100`, the mm unit, `n = 10`. -/
theorem claim2_witness :
    (1 : ℚ) ≤ 10 ∧ (10 : ℚ) ≤ 72 ∧ (10 : ℚ) ≠ 0
    ∧ sc_mmScaledVal 100 mmUnit 10 * 10 = mmUnit.toMM 100
    ∧ app_mmScaledVal 100 mmUnit 10 * 10 = mmUnit.toMM 100 :=
  ⟨by norm_num, by norm_num, by norm_num,
   (claim2_amended 100 mmUnit 10).2.1 (by norm_num) (by norm_num),
   (claim2_amended 100 mmUnit 10).2.2.2.1 (by norm_num)⟩

/-- C6: the scale ratio converter computes `(from / to) * 100` rounded
to two fixed decimal places; at equal scales it returns exactly 100,
and at `(14, 18)` it returns 77.78. -/
theorem claim6_percent_formula :
    (∀ a b : ℕ, 0 < a → 0 < b → percent a b = toFixedQ 2 ((a : ℚ) / b * 100))
    ∧ (∀ n : ℕ, 0 < n → percent n n = 100)
    ∧ percent 14 18 = 7778 / 100 := by
  have key : ∀ a b : ℕ, 0 < a → 0 < b → percent a b = toFixedQ 2 ((a : ℚ) / b * 100) := by
    intro a b ha hb
    rw [percent, if_neg]
    push_neg
    exact ⟨Nat.cast_ne_zero.mpr ha.ne', Nat.cast_ne_zero.mpr hb.ne'⟩
  refine ⟨key, ?_, ?_⟩
  · intro n hn
    rw [key n n hn hn, div_self (Nat.cast_ne_zero.mpr hn.ne' : (n : ℚ) ≠ 0), one_mul,
      toFixedQ, if_neg (by norm_num : ¬(100 : ℚ) < 0),
      show (100 : ℚ) * 10 ^ 2 + 1 / 2 = 20001 / 2 by norm_num,
      intFloor_eq (20001 / 2) 10000 (by norm_num) (by norm_num)]
    norm_num
  · rw [show ((14 : ℚ) : ℚ) = ((14 : ℕ) : ℚ) by norm_num,
      show ((18 : ℚ) : ℚ) = ((18 : ℕ) : ℚ) by norm_num] at *
    rw [key 14 18 (by norm_num) (by norm_num),
      toFixedQ, if_neg (by push_cast; norm_num : ¬((14 : ℕ) : ℚ) / ((18 : ℕ) : ℚ) * 100 < 0),
      show ((14 : ℕ) : ℚ) / ((18 : ℕ) : ℚ) * 100 * 10 ^ 2 + 1 / 2 = 140009 / 18 by push_cast; norm_num,
      intFloor_eq (140009 / 18) 7778 (by norm_num) (by norm_num)]
    norm_num

/-- Witness for C6 at `a = 14`, `b = 18`. -/
theorem claim6_witness :
    0 < 14 ∧ 0 < 18 ∧ percent ((14 : ℕ) : ℚ) ((18 : ℕ) : ℚ) = toFixedQ 2 (((14 : ℕ) : ℚ) / ((18 : ℕ) : ℚ) * 100) :=
  ⟨by norm_num, by norm_num, claim6_percent_formula.1 14 18 (by norm_num) (by norm_num)⟩

/-- Counterexample to C8 as stated: the `App.jsx` linear converter does
NOT strip commas before parsing — for the input string `"1,000"` it
produces 0 (the string parses as `NaN`), while parsing with commas
stripped would give 1000. -/
theorem claim8_counterexample :
    app_mmScaled "1,000" mmUnit 1 ≠
      app_mmScaledVal ((jsNumber (stripCommas "1,000")).getD 0) mmUnit 1 := by
  have hL : jsNumber "1,000" = none := by decide
  have hR : jsNumber (stripCommas "1,000") = some 1000 := by decide
  rw [show app_mmScaled "1,000" mmUnit 1 = 0 by rw [app_mmScaled, hL], hR]
  show (0 : ℚ) ≠ app_mmScaledVal 1000 mmUnit 1
  rw [app_mmScaledVal, div_one]
  show (0 : ℚ) ≠ 1000
  norm_num

/-- C8 amended: the `part_000` converter strips commas (thousands
separators) from the raw string before parsing, so `"1,000"` converts
as 1000; the `App.jsx` converter parses the raw string unchanged, so a
comma-containing input parses as `NaN`.  In both converters any input
that does not parse to a finite number is silently treated as 0 and
the computation produces a zero result. -/
theorem claim8_amended :
    (∀ (s : String) (u : ConvUnit) (n : ℚ), jsNumber s = none → app_mmScaled s u n = 0)
    ∧ (∀ (s : String) (u : ConvUnit) (n : ℚ), u ∈ METRIC_UNITS ++ IMPERIAL_UNITS →
        jsNumber (stripCommas s) = none → sc_mmScaled s u n = 0)
    ∧ sc_mmScaled "1,000" mmUnit 1 = 1000
    ∧ app_mmScaled "1,000" mmUnit 1 = 0 := by
  refine ⟨?_, ?_, ?_, ?_⟩
  · intro s u n h
    rw [app_mmScaled, h]
  · intro s u n hu h
    rw [sc_mmScaled, scParsed, h, sc_mmScaledVal]
    simp only [METRIC_UNITS, IMPERIAL_UNITS, List.mem_append, List.mem_cons,
      List.mem_singleton, List.not_mem_nil, or_false] at hu
    rcases hu with (hh | hh | hh) | (hh | hh) <;> subst hh
    · show (0 : ℚ) / clamp n 1 72 = 0
      rw [zero_div]
    · show (0 : ℚ) * 10 / clamp n 1 72 = 0
      rw [zero_mul, zero_div]
    · show (0 : ℚ) * 1000 / clamp n 1 72 = 0
      rw [zero_mul, zero_div]
    · show (0 : ℚ) * 25.4 / clamp n 1 72 = 0
      rw [zero_mul, zero_div]
    · show (0 : ℚ) * 12 * 25.4 / clamp n 1 72 = 0
      rw [zero_mul, zero_mul, zero_div]
  · have hR : jsNumber (stripCommas "1,000") = some 1000 := by decide
    rw [sc_mmScaled, scParsed, hR, sc_mmScaledVal,
      show clamp (1 : ℚ) 1 72 = 1 by
        rw [clamp, max_self, min_eq_left (by norm_num : (1 : ℚ) ≤ 72)]]
    show (1000 : ℚ) / 1 = 1000
    rw [div_one]
  · have hL : jsNumber "1,000" = none := by decide
    rw [app_mmScaled, hL]

/-- Witness for C8 amended at the non-numeric input `"abc"`. -/
theorem claim8_witness :
    jsNumber "abc" = none ∧ app_mmScaled "abc" mmUnit 5 = 0 :=
  ⟨by decide, claim8_amended.1 "abc" mmUnit 5 (by decide)⟩

/-- Counterexample to C3 as stated: at `inches = 1/100`, `denom = 16`
the remainder rounds to numerator 0 and the reduction branch divides
the denominator by `gcd(0, 16) = 16`, so the returned denominator is 1,
not the originally requested 16. -/
theorem claim3_counterexample :
    (inchesToFraction (.finite (1 / 100)) 16).num = 0
    ∧ (inchesToFraction (.finite (1 / 100)) 16).denom ≠ 16 := by
  have e : inchesToFraction (.finite (1 / 100)) 16 =
      ⟨"", 0, 0 / max (Nat.gcd 0 16) 1, 16 / max (Nat.gcd 0 16) 1⟩ :=
    inchesToFraction_pos_eval (1 / 100) 16 0 0 (by norm_num)
      (natFloor_eq _ 0 (by norm_num) (by norm_num))
      (natFloor_eq _ 0 (by push_cast; norm_num) (by push_cast; norm_num))
      (by norm_num)
  rw [e]
  refine ⟨rfl, ?_⟩
  show (16 : ℕ) / max (Nat.gcd 0 16) 1 ≠ 16
  decide

/-- C3 amended: for every finite inch value and positive requested
denominator `d`, the result satisfies `0 ≤ num < denom`, and a nonzero
numerator is coprime to the returned denominator; when the numerator is
0 the returned denominator is the requested `d` in the overflow branch
but 1 in the reduction branch (where `gcd(0, d) = d` divides `d` away),
not always `d` as claimed. -/
theorem claim3_amended (q : ℚ) (d : ℕ) (hd : 0 < d) :
    (inchesToFraction (.finite q) d).num < (inchesToFraction (.finite q) d).denom
    ∧ ((inchesToFraction (.finite q) d).num ≠ 0 →
        Nat.gcd (inchesToFraction (.finite q) d).num (inchesToFraction (.finite q) d).denom = 1)
    ∧ ((inchesToFraction (.finite q) d).num = 0 →
        (inchesToFraction (.finite q) d).denom = d ∨ (inchesToFraction (.finite q) d).denom = 1) := by
  have h0 : (0 : ℚ) ≤ |q| := abs_nonneg q
  have hfl : ((⌊|q|⌋₊ : ℕ) : ℚ) ≤ |q| := Nat.floor_le h0
  have hfu : |q| < (⌊|q|⌋₊ : ℕ) + 1 := Nat.lt_floor_add_one _
  have hd0 : (0 : ℚ) ≤ (d : ℚ) := Nat.cast_nonneg d
  have hargnn : (0 : ℚ) ≤ (|q| - (⌊|q|⌋₊ : ℕ)) * (d : ℚ) + 1 / 2 := by
    have : (0 : ℚ) ≤ (|q| - (⌊|q|⌋₊ : ℕ)) * (d : ℚ) :=
      mul_nonneg (by linarith) hd0
    linarith
  have hnum_le : ⌊(|q| - ((⌊|q|⌋₊ : ℕ) : ℚ)) * (d : ℚ) + 1 / 2⌋₊ ≤ d := by
    have hstep : (|q| - ((⌊|q|⌋₊ : ℕ) : ℚ)) * (d : ℚ) ≤ 1 * (d : ℚ) :=
      mul_le_mul_of_nonneg_right (by linarith) hd0
    have hlt : ⌊(|q| - ((⌊|q|⌋₊ : ℕ) : ℚ)) * (d : ℚ) + 1 / 2⌋₊ < d + 1 :=
      (Nat.floor_lt hargnn).mpr (by push_cast; linarith)
    omega
  simp only [inchesToFraction]
  by_cases hnd : ⌊(|q| - ((⌊|q|⌋₊ : ℕ) : ℚ)) * (d : ℚ) + 1 / 2⌋₊ = d
  · rw [if_pos hnd]
    exact ⟨hd, fun hc => absurd rfl hc, fun _ => Or.inl rfl⟩
  · rw [if_neg hnd]
    dsimp only
    have hlt : ⌊(|q| - ((⌊|q|⌋₊ : ℕ) : ℚ)) * (d : ℚ) + 1 / 2⌋₊ < d :=
      lt_of_le_of_ne hnum_le hnd
    by_cases h0n : ⌊(|q| - ((⌊|q|⌋₊ : ℕ) : ℚ)) * (d : ℚ) + 1 / 2⌋₊ = 0
    · rw [h0n]
      have hgg : max (Nat.gcd 0 d) 1 = d := by
        rw [Nat.gcd_zero_left, max_eq_left hd]
      rw [hgg]
      refine ⟨?_, ?_, fun _ => Or.inr ?_⟩
      · rw [Nat.zero_div, Nat.div_self hd]
        exact Nat.one_pos
      · intro hc
        rw [Nat.zero_div] at hc
        exact absurd rfl hc
      · exact Nat.div_self hd
    · have hpos : 0 < ⌊(|q| - ((⌊|q|⌋₊ : ℕ) : ℚ)) * (d : ℚ) + 1 / 2⌋₊ :=
        Nat.pos_of_ne_zero h0n
      have hg : 0 < Nat.gcd (⌊(|q| - ((⌊|q|⌋₊ : ℕ) : ℚ)) * (d : ℚ) + 1 / 2⌋₊) d :=
        Nat.pos_of_ne_zero (fun hc => h0n (Nat.eq_zero_of_gcd_eq_zero_left hc))
      have hgg : max (Nat.gcd (⌊(|q| - ((⌊|q|⌋₊ : ℕ) : ℚ)) * (d : ℚ) + 1 / 2⌋₊) d) 1 =
          Nat.gcd (⌊(|q| - ((⌊|q|⌋₊ : ℕ) : ℚ)) * (d : ℚ) + 1 / 2⌋₊) d :=
        max_eq_left hg
      rw [hgg]
      refine ⟨?_, fun _ => ?_, fun hc => ?_⟩
      · exact Nat.div_lt_div_of_lt_of_dvd (Nat.gcd_dvd_right _ d) hlt
      · exact Nat.coprime_div_gcd_div_gcd hg
      · exfalso
        have hle : Nat.gcd (⌊(|q| - ((⌊|q|⌋₊ : ℕ) : ℚ)) * (d : ℚ) + 1 / 2⌋₊) d ≤
            ⌊(|q| - ((⌊|q|⌋₊ : ℕ) : ℚ)) * (d : ℚ) + 1 / 2⌋₊ :=
          Nat.le_of_dvd hpos (Nat.gcd_dvd_left _ d)
        have := Nat.div_pos hle hg
        omega

/-- Witness for C3 amended at `inches = 1/2`, `d = 16` (which reduces
8/16 to 1/2). -/
theorem claim3_witness :
    0 < 16
    ∧ ((inchesToFraction (.finite (1 / 2)) 16).num < (inchesToFraction (.finite (1 / 2)) 16).denom
      ∧ ((inchesToFraction (.finite (1 / 2)) 16).num ≠ 0 →
          Nat.gcd (inchesToFraction (.finite (1 / 2)) 16).num
            (inchesToFraction (.finite (1 / 2)) 16).denom = 1)
      ∧ ((inchesToFraction (.finite (1 / 2)) 16).num = 0 →
          (inchesToFraction (.finite (1 / 2)) 16).denom = 16
          ∨ (inchesToFraction (.finite (1 / 2)) 16).denom = 1)) :=
  ⟨by norm_num, claim3_amended (1 / 2) 16 (by norm_num)⟩

end ScaleConv
